import Mathlib

/-!
Shallow embedding of the allocator library in `alloc.h`: the alignment
utility and the arena, pool, stack, scratch and freelist strategies.

Addresses and sizes (`size_t`, `uint8_t*`) are modelled as `Nat`; the
null pointer is `Option.none`, so every operation that may return null
returns an `Option Nat`.  Memory contents are not modelled (no claim
below depends on them); each strategy's bookkeeping state is modelled
exactly: the arena/stack cursor, the pool's intrusive free chain as the
list of chunk addresses it threads through, the freelist's chain as the
list of `(address, size)` pairs its in-place headers encode, and the
scratch allocator's tracking array as the list of tracked pointers plus
the array's own address and capacity.  The unused `backing` field that
the buffer-based strategy structs carry (always `NULL`, never read) is
omitted.  `sizeof(void*)` is 8 and `sizeof(freelist_node)` is 16, as on
the 64-bit targets the code is written for.
-/

/-- Embedding of `align_forward`: round `ptr` up using the bit mask
`ptr & (alignment - 1)`, exactly as the source computes it. -/
def align_forward (ptr alignment : Nat) : Nat :=
  let modulo := ptr &&& (alignment - 1)
  if modulo ≠ 0 then ptr + (alignment - modulo) else ptr

/-- State of `arena_allocator`: borrowed buffer (base address), its size,
and the bump cursor. -/
structure arena_allocator where
  buffer : Nat
  buffer_size : Nat
  offset : Nat
deriving DecidableEq

/-- Embedding of `arena_allocator_init`. -/
def arena_allocator_init (buffer size : Nat) : arena_allocator :=
  { buffer := buffer, buffer_size := size, offset := 0 }

/-- Embedding of `arena_allocator_alloc`; returns the result pointer
(`none` for `NULL`) together with the updated state. -/
def arena_allocator_alloc (arena : arena_allocator) (size alignment : Nat) :
    Option Nat × arena_allocator :=
  let aligned_offset := align_forward arena.offset alignment
  if aligned_offset + size > arena.buffer_size then
    (none, arena)
  else
    (some (arena.buffer + aligned_offset),
     { arena with offset := aligned_offset + size })

/-- Embedding of `arena_allocator_realloc`.  The `memcpy` of the
out-of-place path copies caller memory, which is not modelled. -/
def arena_allocator_realloc (arena : arena_allocator) (ptr : Option Nat)
    (old_size new_size alignment : Nat) : Option Nat × arena_allocator :=
  match ptr with
  | none => arena_allocator_alloc arena new_size alignment
  | some p =>
    if p + old_size = arena.buffer + arena.offset then
      let aligned_offset := align_forward (p - arena.buffer) alignment
      if aligned_offset + new_size ≤ arena.buffer_size then
        (some p, { arena with offset := aligned_offset + new_size })
      else
        arena_allocator_alloc arena new_size alignment
    else
      arena_allocator_alloc arena new_size alignment

/-- Embedding of `arena_allocator_free`: a no-op. -/
def arena_allocator_free (arena : arena_allocator) (_ptr : Option Nat)
    (_size : Nat) : arena_allocator :=
  arena

/-- Embedding of `arena_allocator_reset`. -/
def arena_allocator_reset (arena : arena_allocator) : arena_allocator :=
  { arena with offset := 0 }

/-- One call through the arena's `allocator` interface (plus `reset`),
projected to its state effect. -/
inductive arena_op where
  | alloc (size alignment : Nat)
  | realloc (ptr : Option Nat) (old_size new_size alignment : Nat)
  | free (ptr : Option Nat) (size : Nat)
  | reset
deriving DecidableEq

/-- State effect of a single arena operation. -/
def arena_step (arena : arena_allocator) : arena_op → arena_allocator
  | .alloc size alignment => (arena_allocator_alloc arena size alignment).2
  | .realloc ptr old_size new_size alignment =>
      (arena_allocator_realloc arena ptr old_size new_size alignment).2
  | .free ptr size => arena_allocator_free arena ptr size
  | .reset => arena_allocator_reset arena

/-- Running a sequence of arena operations. -/
def arena_run (arena : arena_allocator) (ops : List arena_op) : arena_allocator :=
  ops.foldl arena_step arena

/-- State of `pool_allocator`: buffer base, chunk geometry, and the
intrusive free chain as the list of chunk addresses, head first. -/
structure pool_allocator where
  buffer : Nat
  chunk_size : Nat
  chunk_count : Nat
  free_list : List Nat
deriving DecidableEq

/-- Embedding of `pool_allocator_alloc`. -/
def pool_allocator_alloc (pool : pool_allocator) (size _alignment : Nat) :
    Option Nat × pool_allocator :=
  if size > pool.chunk_size then
    (none, pool)
  else
    match pool.free_list with
    | [] => (none, pool)
    | p :: rest => (some p, { pool with free_list := rest })

/-- Embedding of `pool_allocator_free`: push the chunk onto the chain head. -/
def pool_allocator_free (pool : pool_allocator) (ptr : Option Nat)
    (_size : Nat) : pool_allocator :=
  match ptr with
  | none => pool
  | some p => { pool with free_list := p :: pool.free_list }

/-- Embedding of `pool_allocator_realloc`. -/
def pool_allocator_realloc (pool : pool_allocator) (ptr : Option Nat)
    (old_size new_size alignment : Nat) : Option Nat × pool_allocator :=
  if new_size ≤ pool.chunk_size ∧ old_size ≤ pool.chunk_size then
    (ptr, pool)
  else
    match pool_allocator_alloc pool new_size alignment with
    | (none, pool₁) => (none, pool₁)
    | (some q, pool₁) =>
      match ptr with
      | none => (some q, pool₁)
      | some p => (some q, pool_allocator_free pool₁ (some p) old_size)

/-- Embedding of `pool_allocator_init`: thread all chunks into the chain,
pushing chunk `chunk_count - 1 - i` at step `i`, so chunk 0 ends up at
the head. -/
def pool_allocator_init (buffer chunk_size chunk_count : Nat) : pool_allocator :=
  { buffer := buffer, chunk_size := chunk_size, chunk_count := chunk_count,
    free_list :=
      (List.range chunk_count).foldl
        (fun fl i => (buffer + (chunk_count - 1 - i) * chunk_size) :: fl) [] }

/-- State of `stack_allocator`: same shape as the arena. -/
structure stack_allocator where
  buffer : Nat
  buffer_size : Nat
  offset : Nat
deriving DecidableEq

/-- Embedding of `stack_marker`. -/
structure stack_marker where
  offset : Nat
deriving DecidableEq

/-- Embedding of `stack_allocator_alloc`. -/
def stack_allocator_alloc (stack : stack_allocator) (size alignment : Nat) :
    Option Nat × stack_allocator :=
  let aligned_offset := align_forward stack.offset alignment
  if aligned_offset + size > stack.buffer_size then
    (none, stack)
  else
    (some (stack.buffer + aligned_offset),
     { stack with offset := aligned_offset + size })

/-- Embedding of `stack_allocator_realloc`. -/
def stack_allocator_realloc (stack : stack_allocator) (ptr : Option Nat)
    (old_size new_size alignment : Nat) : Option Nat × stack_allocator :=
  match ptr with
  | none => stack_allocator_alloc stack new_size alignment
  | some p =>
    if p + old_size = stack.buffer + stack.offset then
      let aligned_offset := align_forward (p - stack.buffer) alignment
      if aligned_offset + new_size ≤ stack.buffer_size then
        (some p, { stack with offset := aligned_offset + new_size })
      else
        stack_allocator_alloc stack new_size alignment
    else
      stack_allocator_alloc stack new_size alignment

/-- Embedding of `stack_allocator_free`: reclaim only the top allocation. -/
def stack_allocator_free (stack : stack_allocator) (ptr : Option Nat)
    (size : Nat) : stack_allocator :=
  match ptr with
  | none => stack
  | some p =>
    if p + size = stack.buffer + stack.offset then
      { stack with offset := p - stack.buffer }
    else
      stack

/-- Embedding of `stack_allocator_mark`. -/
def stack_allocator_mark (stack : stack_allocator) : stack_marker :=
  { offset := stack.offset }

/-- Embedding of `stack_allocator_restore`. -/
def stack_allocator_restore (stack : stack_allocator)
    (marker : stack_marker) : stack_allocator :=
  { stack with offset := marker.offset }

/-- Embedding of `stack_allocator_reset`. -/
def stack_allocator_reset (stack : stack_allocator) : stack_allocator :=
  { stack with offset := 0 }

/-- One call through the stack's `allocator` interface, projected to its
state effect. -/
inductive stack_op where
  | alloc (size alignment : Nat)
  | realloc (ptr : Option Nat) (old_size new_size alignment : Nat)
  | free (ptr : Option Nat) (size : Nat)
deriving DecidableEq

/-- State effect of a single stack operation. -/
def stack_step (stack : stack_allocator) : stack_op → stack_allocator
  | .alloc size alignment => (stack_allocator_alloc stack size alignment).2
  | .realloc ptr old_size new_size alignment =>
      (stack_allocator_realloc stack ptr old_size new_size alignment).2
  | .free ptr size => stack_allocator_free stack ptr size

/-- Running a sequence of stack operations. -/
def stack_run (stack : stack_allocator) (ops : List stack_op) : stack_allocator :=
  ops.foldl stack_step stack

/-- Interface of a backing allocator, as the scratch decorator consumes
it through `alloc_alloc` / `alloc_realloc` / `alloc_free`: each call
takes and returns the backing allocator's state of type `β`. -/
structure Backing (β : Type) where
  alloc : β → Nat → Nat → Option Nat × β
  realloc : β → Option Nat → Nat → Nat → Nat → Option Nat × β
  free : β → Nat → Nat → β

/-- Bytes of one `void*` slot of the scratch tracking array. -/
def sizeof_void_ptr : Nat := 8

/-- State of `scratch_allocator`: the tracked pointers in issue order
(`allocations[0 .. allocation_count)`), the tracking array's own address
(`NULL` until first grown), and its capacity in slots. -/
structure scratch_allocator where
  allocations : List Nat
  allocations_ptr : Option Nat
  allocation_capacity : Nat
deriving DecidableEq

/-- Embedding of `scratch_allocator_init`. -/
def scratch_allocator_init : scratch_allocator :=
  { allocations := [], allocations_ptr := none, allocation_capacity := 0 }

/-- Embedding of `scratch_allocator_alloc`, parameterized by the backing
allocator `bk` and its state `b`. -/
def scratch_allocator_alloc {β : Type} (bk : Backing β)
    (scratch : scratch_allocator) (b : β) (size alignment : Nat) :
    Option Nat × scratch_allocator × β :=
  match bk.alloc b size alignment with
  | (none, b₁) => (none, scratch, b₁)
  | (some p, b₁) =>
    if scratch.allocations.length ≥ scratch.allocation_capacity then
      let new_capacity :=
        if scratch.allocation_capacity = 0 then 8
        else scratch.allocation_capacity * 2
      match bk.realloc b₁ scratch.allocations_ptr
          (scratch.allocation_capacity * sizeof_void_ptr)
          (new_capacity * sizeof_void_ptr) sizeof_void_ptr with
      | (none, b₂) => (none, scratch, bk.free b₂ p size)
      | (some q, b₂) =>
        (some p,
         { allocations := scratch.allocations ++ [p],
           allocations_ptr := some q,
           allocation_capacity := new_capacity }, b₂)
    else
      (some p, { scratch with allocations := scratch.allocations ++ [p] }, b₁)

/-- Replace the first occurrence of `p` by `q`, as the linear scan with
`break` in `scratch_allocator_realloc` does. -/
def replace_first : List Nat → Nat → Nat → List Nat
  | [], _, _ => []
  | x :: xs, p, q => if x = p then q :: xs else x :: replace_first xs p q

/-- Embedding of `scratch_allocator_realloc`. -/
def scratch_allocator_realloc {β : Type} (bk : Backing β)
    (scratch : scratch_allocator) (b : β) (ptr : Option Nat)
    (old_size new_size alignment : Nat) :
    Option Nat × scratch_allocator × β :=
  match ptr with
  | none => scratch_allocator_alloc bk scratch b new_size alignment
  | some p =>
    match bk.realloc b (some p) old_size new_size alignment with
    | (none, b₁) => (none, scratch, b₁)
    | (some q, b₁) =>
      (some q,
       { scratch with allocations := replace_first scratch.allocations p q },
       b₁)

/-- Embedding of `scratch_allocator_free`: a no-op on both states. -/
def scratch_allocator_free {β : Type} (_bk : Backing β)
    (scratch : scratch_allocator) (b : β) (_ptr : Option Nat) (_size : Nat) :
    scratch_allocator × β :=
  (scratch, b)

/-- Embedding of `scratch_allocator_reset`: release every tracked
pointer through the backing allocator with size `0`, in issue order,
then zero the count (the capacity and the array survive). -/
def scratch_allocator_reset {β : Type} (bk : Backing β)
    (scratch : scratch_allocator) (b : β) : scratch_allocator × β :=
  ({ scratch with allocations := [] },
   scratch.allocations.foldl (fun bb p => bk.free bb p 0) b)

/-- Bytes of one `freelist_node` header (`size_t` plus one pointer). -/
def sizeof_freelist_node : Nat := 16

/-- State of `freelist_allocator`: buffer base and size, and the free
chain as the `(address, size)` pairs its in-place headers encode, in
chain order (head first). -/
structure freelist_allocator where
  buffer : Nat
  buffer_size : Nat
  free_list : List (Nat × Nat)
deriving DecidableEq

/-- Embedding of `freelist_allocator_init`: one free block spanning the
whole buffer. -/
def freelist_allocator_init (buffer size : Nat) : freelist_allocator :=
  { buffer := buffer, buffer_size := size, free_list := [(buffer, size)] }

/-- The search loop of `freelist_allocator_alloc`: walk the chain for
the first node passing both size checks (`node->size >= size +
alignment - 1`, then `node->size >= size + padding` for the padding its
aligned start needs); return it and the chain with it unlinked. -/
def freelist_find (size alignment : Nat) :
    List (Nat × Nat) → Option ((Nat × Nat) × List (Nat × Nat))
  | [] => none
  | node :: rest =>
    if node.2 ≥ size + alignment - 1 ∧
        node.2 ≥ size + (align_forward node.1 alignment - node.1) then
      some (node, rest)
    else
      match freelist_find size alignment rest with
      | none => none
      | some (found, rest') => some (found, node :: rest')

/-- Embedding of `freelist_allocator_alloc`: first-fit search; on a hit,
unlink the node and, when the node's size exceeds `size + alignment - 1`
plus a header, push the carved remainder onto the chain head. -/
def freelist_allocator_alloc (freelist : freelist_allocator)
    (size alignment : Nat) : Option Nat × freelist_allocator :=
  match freelist_find size alignment freelist.free_list with
  | none => (none, freelist)
  | some (node, removed) =>
    let aligned_addr := align_forward node.1 alignment
    let padding := aligned_addr - node.1
    if node.2 > size + alignment - 1 + sizeof_freelist_node then
      (some aligned_addr,
       { freelist with free_list :=
          (node.1 + size + padding, node.2 - (size + padding)) :: removed })
    else
      (some aligned_addr, { freelist with free_list := removed })

/-- Embedding of `freelist_allocator_free`: write a header recording
`size` into the span and push it to the chain head. -/
def freelist_allocator_free (freelist : freelist_allocator)
    (ptr : Option Nat) (size : Nat) : freelist_allocator :=
  match ptr with
  | none => freelist
  | some p => { freelist with free_list := (p, size) :: freelist.free_list }

/-- Embedding of `freelist_allocator_realloc`: always allocate-elsewhere,
copy, release the old span. -/
def freelist_allocator_realloc (freelist : freelist_allocator)
    (ptr : Option Nat) (old_size new_size alignment : Nat) :
    Option Nat × freelist_allocator :=
  match ptr with
  | none => freelist_allocator_alloc freelist new_size alignment
  | some p =>
    match freelist_allocator_alloc freelist new_size alignment with
    | (none, freelist₁) => (none, freelist₁)
    | (some q, freelist₁) =>
      (some q, freelist_allocator_free freelist₁ (some p) old_size)

/-- An observer backing allocator whose state is the list of
`(pointer, size)` arguments of the `free` calls it has received, in
order; used to state what `scratch_allocator_reset` hands back. -/
def trace_backing : Backing (List (Nat × Nat)) where
  alloc := fun b _ _ => (none, b)
  realloc := fun b _ _ _ _ => (none, b)
  free := fun b p size => b ++ [(p, size)]

/-- Mask form of `align_forward` at a power-of-two alignment: the
bit-and becomes a remainder. -/
theorem align_forward_pow2 (o k : Nat) :
    align_forward o (2 ^ k) =
      if o % 2 ^ k ≠ 0 then o + (2 ^ k - o % 2 ^ k) else o := by
  simp only [align_forward, Nat.and_pow_two_sub_one_eq_mod]

/-- At a power-of-two alignment, `align_forward` returns the least
multiple of the alignment that is not below its input. -/
theorem align_forward_pow2_spec (o k : Nat) :
    align_forward o (2 ^ k) % 2 ^ k = 0 ∧
    o ≤ align_forward o (2 ^ k) ∧
    align_forward o (2 ^ k) < o + 2 ^ k := by
  have hpos : 0 < 2 ^ k := Nat.two_pow_pos k
  have hdm := Nat.div_add_mod o (2 ^ k)
  have hlt : o % 2 ^ k < 2 ^ k := Nat.mod_lt o hpos
  rw [align_forward_pow2]
  by_cases h : o % 2 ^ k = 0
  · rw [if_neg (by simp [h])]
    exact ⟨h, Nat.le_refl o, by omega⟩
  · rw [if_pos (by simp [h])]
    refine ⟨?_, by omega, by omega⟩
    have key : o + (2 ^ k - o % 2 ^ k) = 2 ^ k * (o / 2 ^ k + 1) := by
      rw [Nat.mul_add, Nat.mul_one]
      omega
    rw [key]
    exact Nat.mul_mod_right _ _

/-- C3: arena `allocate` with a power-of-two alignment rounds the cursor
up to the next multiple of the alignment; if the aligned cursor plus
`size` exceeds the buffer size it fails (returns the null signal, the
arena's only failure kind, `OutOfSpace`) and leaves the state unchanged;
otherwise it returns `buffer + aligned offset` and advances the cursor
to `aligned offset + size`. -/
theorem claim_C3 (arena : arena_allocator) (size alignment k : Nat)
    (hk : alignment = 2 ^ k) :
    (align_forward arena.offset alignment % alignment = 0 ∧
      arena.offset ≤ align_forward arena.offset alignment ∧
      align_forward arena.offset alignment < arena.offset + alignment) ∧
    (align_forward arena.offset alignment + size > arena.buffer_size →
      arena_allocator_alloc arena size alignment = (none, arena)) ∧
    (align_forward arena.offset alignment + size ≤ arena.buffer_size →
      arena_allocator_alloc arena size alignment =
        (some (arena.buffer + align_forward arena.offset alignment),
         { arena with offset := align_forward arena.offset alignment + size })) := by
  subst hk
  refine ⟨align_forward_pow2_spec arena.offset k, ?_, ?_⟩
  · intro h
    simp only [arena_allocator_alloc]
    rw [if_pos h]
  · intro h
    simp only [arena_allocator_alloc]
    rw [if_neg (by omega)]

/-- Concrete run of `claim_C3`: an arena at cursor 5 in a 1024-byte
buffer serves a 4-byte, 4-aligned request at offset 8. -/
theorem claim_C3_witness :
    arena_allocator_alloc ⟨0, 1024, 5⟩ 4 4 = (some 8, ⟨0, 1024, 12⟩) := by
  have h := (claim_C3 ⟨0, 1024, 5⟩ 4 4 2 (by norm_num)).2.2 (by decide)
  rw [h]
  decide

/-- Arena invariant of the spec: `0 ≤ offset ≤ buffer_size` (the lower
bound is automatic for `Nat`). -/
def arena_inv (arena : arena_allocator) : Prop :=
  arena.offset ≤ arena.buffer_size

/-- Arena `allocate` preserves the cursor invariant. -/
theorem arena_alloc_inv (arena : arena_allocator) (size alignment : Nat)
    (h : arena_inv arena) :
    arena_inv (arena_allocator_alloc arena size alignment).2 := by
  unfold arena_inv at *
  simp only [arena_allocator_alloc]
  split
  · exact h
  · simp only []
    omega

/-- Arena `reallocate` preserves the cursor invariant. -/
theorem arena_realloc_inv (arena : arena_allocator) (ptr : Option Nat)
    (old_size new_size alignment : Nat) (h : arena_inv arena) :
    arena_inv (arena_allocator_realloc arena ptr old_size new_size alignment).2 := by
  match ptr with
  | none => exact arena_alloc_inv arena new_size alignment h
  | some p =>
    simp only [arena_allocator_realloc]
    split
    · split
      · unfold arena_inv
        simp only []
        omega
      · exact arena_alloc_inv arena new_size alignment h
    · exact arena_alloc_inv arena new_size alignment h

/-- Every single arena operation preserves the cursor invariant. -/
theorem arena_step_inv (arena : arena_allocator) (op : arena_op)
    (h : arena_inv arena) : arena_inv (arena_step arena op) := by
  cases op with
  | alloc size alignment => exact arena_alloc_inv arena size alignment h
  | realloc ptr old_size new_size alignment =>
      exact arena_realloc_inv arena ptr old_size new_size alignment h
  | free ptr size => exact h
  | reset => exact Nat.zero_le _

/-- C4: the arena invariant `0 ≤ offset ≤ buffer_size` holds after
initialization, is preserved by each operation and hence by every
sequence of operations, and `reset` always sets the offset to 0. -/
theorem claim_C4 :
    (∀ buffer size, arena_inv (arena_allocator_init buffer size)) ∧
    (∀ arena op, arena_inv arena → arena_inv (arena_step arena op)) ∧
    (∀ arena ops, arena_inv arena → arena_inv (arena_run arena ops)) ∧
    (∀ arena, (arena_allocator_reset arena).offset = 0) := by
  refine ⟨fun _ _ => Nat.zero_le _, arena_step_inv, ?_, fun _ => rfl⟩
  intro arena ops h
  induction ops generalizing arena with
  | nil => exact h
  | cons op ops ih => exact ih _ (arena_step_inv arena op h)

/-- Concrete run of `claim_C4`: a fresh 1024-byte arena keeps the
invariant across two allocations, a reallocation and a reset. -/
theorem claim_C4_witness :
    arena_inv (arena_run (arena_allocator_init 0 1024)
      [arena_op.alloc 4 4, arena_op.alloc 4 4,
       arena_op.realloc (some 4) 4 8 4, arena_op.reset]) :=
  claim_C4.2.2.1 (arena_allocator_init 0 1024)
    [arena_op.alloc 4 4, arena_op.alloc 4 4,
     arena_op.realloc (some 4) 4 8 4, arena_op.reset]
    (Nat.zero_le 1024)

/-- C6: pool `allocate` fails when `size` exceeds the chunk size (the
source's `ChunkTooLarge` check, its first `NULL` return), fails when the
size fits but the free chain is empty (the `OutOfSpace` check, its
second `NULL` return), and otherwise pops and returns the chain head;
the failing paths leave the pool untouched. -/
theorem claim_C6 (pool : pool_allocator) (size alignment : Nat) :
    (size > pool.chunk_size →
      pool_allocator_alloc pool size alignment = (none, pool)) ∧
    (size ≤ pool.chunk_size → pool.free_list = [] →
      pool_allocator_alloc pool size alignment = (none, pool)) ∧
    (∀ p rest, size ≤ pool.chunk_size → pool.free_list = p :: rest →
      pool_allocator_alloc pool size alignment =
        (some p, { pool with free_list := rest })) := by
  refine ⟨?_, ?_, ?_⟩
  · intro h
    simp only [pool_allocator_alloc]
    rw [if_pos h]
  · intro h hnil
    simp only [pool_allocator_alloc]
    rw [if_neg (by omega), hnil]
  · intro p rest h hcons
    simp only [pool_allocator_alloc]
    rw [if_neg (by omega), hcons]

/-- Concrete run of `claim_C6`: a pool with chunk size 32 and chain
head 0 serves a 16-byte request with chunk 0. -/
theorem claim_C6_witness :
    pool_allocator_alloc ⟨0, 32, 8, [0, 32, 64]⟩ 16 8 =
      (some 0, ⟨0, 32, 8, [32, 64]⟩) := by
  have h := (claim_C6 ⟨0, 32, 8, [0, 32, 64]⟩ 16 8).2.2 0 [32, 64]
    (by decide) rfl
  rw [h]

/-- C7: releasing a chunk and immediately allocating any size that fits
the chunk size returns that same chunk, and the chain behind it is
exactly what it was before the release. -/
theorem claim_C7 (pool : pool_allocator) (p free_size size alignment : Nat)
    (h : size ≤ pool.chunk_size) :
    pool_allocator_alloc (pool_allocator_free pool (some p) free_size)
      size alignment = (some p, pool) := by
  simp only [pool_allocator_free, pool_allocator_alloc]
  rw [if_neg (Nat.not_lt.2 h)]

/-- Concrete run of `claim_C7`: releasing chunk 64 into a pool whose
chain is `[0, 32]` and allocating 20 bytes returns chunk 64 and the
chain `[0, 32]`. -/
theorem claim_C7_witness :
    pool_allocator_alloc
      (pool_allocator_free ⟨0, 32, 8, [0, 32]⟩ (some 64) 32) 20 8 =
      (some 64, ⟨0, 32, 8, [0, 32]⟩) :=
  claim_C7 ⟨0, 32, 8, [0, 32]⟩ 64 32 20 8 (by decide)

/-- C8: restoring the marker just taken leaves the stack state unchanged
(whole-state equality), and after any operation sequences before and
after a `mark`, `restore` brings the offset back to exactly the snapshot
the marker recorded. -/
theorem claim_C8 :
    (∀ stack : stack_allocator,
       stack_allocator_restore stack (stack_allocator_mark stack) = stack) ∧
    (∀ (stack : stack_allocator) (ops₁ ops₂ : List stack_op),
       (stack_allocator_restore (stack_run (stack_run stack ops₁) ops₂)
          (stack_allocator_mark (stack_run stack ops₁))).offset =
         (stack_run stack ops₁).offset) :=
  ⟨fun _ => rfl, fun _ _ _ => rfl⟩

/-- C1 fails on the pool allocator: with a null pointer and a new size
that fits the chunk size, `pool_allocator_realloc` returns the null
failure signal and touches nothing, while `pool_allocator_alloc` on the
same state succeeds with the chain head.  Concretely: chunk size 32,
chain `[0, 32]`, request 16 bytes. -/
theorem claim_C1_counterexample :
    pool_allocator_realloc ⟨0, 32, 8, [0, 32]⟩ none 0 16 8 =
      (none, ⟨0, 32, 8, [0, 32]⟩) ∧
    pool_allocator_alloc ⟨0, 32, 8, [0, 32]⟩ 16 8 =
      (some 0, ⟨0, 32, 8, [32]⟩) := by
  constructor <;> rfl

/-- C1 (amended): reallocate with a null pointer behaves exactly as
`allocate(new_size, alignment)` for the arena, stack, freelist and
scratch strategies (same result, same state).  For the pool strategy it
does so only when `new_size` or `old_size` exceeds the chunk size; when
both fit, it returns the null failure signal and leaves the pool
unchanged instead of allocating. -/
theorem claim_C1 :
    (∀ (arena : arena_allocator) (old_size new_size alignment : Nat),
       arena_allocator_realloc arena none old_size new_size alignment =
         arena_allocator_alloc arena new_size alignment) ∧
    (∀ (stack : stack_allocator) (old_size new_size alignment : Nat),
       stack_allocator_realloc stack none old_size new_size alignment =
         stack_allocator_alloc stack new_size alignment) ∧
    (∀ (freelist : freelist_allocator) (old_size new_size alignment : Nat),
       freelist_allocator_realloc freelist none old_size new_size alignment =
         freelist_allocator_alloc freelist new_size alignment) ∧
    (∀ (β : Type) (bk : Backing β) (scratch : scratch_allocator) (b : β)
        (old_size new_size alignment : Nat),
       scratch_allocator_realloc bk scratch b none old_size new_size alignment =
         scratch_allocator_alloc bk scratch b new_size alignment) ∧
    (∀ (pool : pool_allocator) (old_size new_size alignment : Nat),
       (new_size ≤ pool.chunk_size ∧ old_size ≤ pool.chunk_size →
          pool_allocator_realloc pool none old_size new_size alignment =
            (none, pool)) ∧
       (¬(new_size ≤ pool.chunk_size ∧ old_size ≤ pool.chunk_size) →
          pool_allocator_realloc pool none old_size new_size alignment =
            pool_allocator_alloc pool new_size alignment)) := by
  refine ⟨fun _ _ _ _ => rfl, fun _ _ _ _ => rfl, fun _ _ _ _ => rfl,
    fun _ _ _ _ _ _ _ => rfl, ?_⟩
  intro pool old_size new_size alignment
  constructor
  · intro h
    simp only [pool_allocator_realloc]
    rw [if_pos h]
  · intro h
    simp only [pool_allocator_realloc]
    rw [if_neg h]
    rcases halloc : pool_allocator_alloc pool new_size alignment with ⟨r, pool₁⟩
    cases r <;> rfl

/-- Concrete run of `claim_C1`: the pool case at chunk size 32, chain
`[0, 32]`, null pointer, both sizes fitting — reallocate fails with the
pool unchanged. -/
theorem claim_C1_witness :
    pool_allocator_realloc ⟨0, 32, 8, [0, 32]⟩ none 4 16 8 =
      (none, ⟨0, 32, 8, [0, 32]⟩) :=
  (claim_C1.2.2.2.2 ⟨0, 32, 8, [0, 32]⟩ 4 16 8).1 (by decide)

/-- Failed arena `allocate` leaves the arena untouched. -/
theorem arena_alloc_fail (arena : arena_allocator) (size alignment : Nat)
    (h : (arena_allocator_alloc arena size alignment).1 = none) :
    (arena_allocator_alloc arena size alignment).2 = arena := by
  revert h
  simp only [arena_allocator_alloc]
  split
  · intro _
    rfl
  · intro h
    exact absurd h (by simp)

/-- Failed stack `allocate` leaves the stack untouched. -/
theorem stack_alloc_fail (stack : stack_allocator) (size alignment : Nat)
    (h : (stack_allocator_alloc stack size alignment).1 = none) :
    (stack_allocator_alloc stack size alignment).2 = stack := by
  revert h
  simp only [stack_allocator_alloc]
  split
  · intro _
    rfl
  · intro h
    exact absurd h (by simp)

/-- Failed pool `allocate` leaves the pool untouched. -/
theorem pool_alloc_fail (pool : pool_allocator) (size alignment : Nat)
    (h : (pool_allocator_alloc pool size alignment).1 = none) :
    (pool_allocator_alloc pool size alignment).2 = pool := by
  revert h
  simp only [pool_allocator_alloc]
  split
  · intro _
    rfl
  · rcases hfl : pool.free_list with _ | ⟨q, rest⟩
    · intro _
      rfl
    · intro h
      exact absurd h (by simp)

/-- Failed freelist `allocate` leaves the chain untouched. -/
theorem freelist_alloc_fail (freelist : freelist_allocator)
    (size alignment : Nat)
    (h : (freelist_allocator_alloc freelist size alignment).1 = none) :
    (freelist_allocator_alloc freelist size alignment).2 = freelist := by
  revert h
  simp only [freelist_allocator_alloc]
  rcases hfind : freelist_find size alignment freelist.free_list with _ | ⟨node, removed⟩
  · intro _
    rfl
  · simp only []
    split <;> intro h <;> exact absurd h (by simp)

/-- C2: whenever `reallocate` is called with a non-null pointer and
fails (returns the null signal), the strategy's own bookkeeping state —
bump cursor, free chain, tracking sequence — is exactly what it was
before the call, for every strategy. -/
theorem claim_C2 :
    (∀ (arena : arena_allocator) (p old_size new_size alignment : Nat),
       (arena_allocator_realloc arena (some p) old_size new_size alignment).1
           = none →
       (arena_allocator_realloc arena (some p) old_size new_size alignment).2
           = arena) ∧
    (∀ (stack : stack_allocator) (p old_size new_size alignment : Nat),
       (stack_allocator_realloc stack (some p) old_size new_size alignment).1
           = none →
       (stack_allocator_realloc stack (some p) old_size new_size alignment).2
           = stack) ∧
    (∀ (pool : pool_allocator) (p old_size new_size alignment : Nat),
       (pool_allocator_realloc pool (some p) old_size new_size alignment).1
           = none →
       (pool_allocator_realloc pool (some p) old_size new_size alignment).2
           = pool) ∧
    (∀ (freelist : freelist_allocator) (p old_size new_size alignment : Nat),
       (freelist_allocator_realloc freelist (some p) old_size new_size
           alignment).1 = none →
       (freelist_allocator_realloc freelist (some p) old_size new_size
           alignment).2 = freelist) ∧
    (∀ (β : Type) (bk : Backing β) (scratch : scratch_allocator) (b : β)
        (p old_size new_size alignment : Nat),
       (scratch_allocator_realloc bk scratch b (some p) old_size new_size
           alignment).1 = none →
       (scratch_allocator_realloc bk scratch b (some p) old_size new_size
           alignment).2.1 = scratch) := by
  refine ⟨?_, ?_, ?_, ?_, ?_⟩
  · intro arena p old_size new_size alignment
    simp only [arena_allocator_realloc]
    split
    · split
      · intro h
        exact absurd h (by simp)
      · exact fun h => arena_alloc_fail arena new_size alignment h
    · exact fun h => arena_alloc_fail arena new_size alignment h
  · intro stack p old_size new_size alignment
    simp only [stack_allocator_realloc]
    split
    · split
      · intro h
        exact absurd h (by simp)
      · exact fun h => stack_alloc_fail stack new_size alignment h
    · exact fun h => stack_alloc_fail stack new_size alignment h
  · intro pool p old_size new_size alignment
    simp only [pool_allocator_realloc]
    split
    · intro h
      exact absurd h (by simp)
    · rcases halloc : pool_allocator_alloc pool new_size alignment
        with ⟨_ | q, pool₁⟩
      · simp only []
        intro _
        have h2 : pool₁ = pool := by
          have h3 := pool_alloc_fail pool new_size alignment (by rw [halloc])
          rw [halloc] at h3
          exact h3
        rw [h2]
      · simp only []
        intro h
        exact absurd h (by simp)
  · intro freelist p old_size new_size alignment
    simp only [freelist_allocator_realloc]
    rcases halloc : freelist_allocator_alloc freelist new_size alignment
      with ⟨_ | q, freelist₁⟩
    · simp only []
      intro _
      have h2 : freelist₁ = freelist := by
        have := freelist_alloc_fail freelist new_size alignment
          (by rw [halloc])
        rw [halloc] at this
        exact this
      rw [h2]
    · simp only []
      intro h
      exact absurd h (by simp)
  · intro β bk scratch b p old_size new_size alignment
    simp only [scratch_allocator_realloc]
    rcases hre : bk.realloc b (some p) old_size new_size alignment
      with ⟨_ | q, b₁⟩
    · intro _
      rfl
    · intro h
      exact absurd h (by simp)

/-- Concrete runs of `claim_C2`: one failing reallocate per strategy,
each leaving the strategy's state exactly as it was. -/
theorem claim_C2_witness :
    (arena_allocator_realloc ⟨0, 10, 10⟩ (some 0) 10 11 1).2 = ⟨0, 10, 10⟩ ∧
    (stack_allocator_realloc ⟨0, 10, 10⟩ (some 0) 10 11 1).2 = ⟨0, 10, 10⟩ ∧
    (pool_allocator_realloc ⟨0, 32, 1, []⟩ (some 0) 40 40 1).2 =
      ⟨0, 32, 1, []⟩ ∧
    (freelist_allocator_realloc ⟨0, 16, []⟩ (some 0) 4 4 1).2 = ⟨0, 16, []⟩ ∧
    (scratch_allocator_realloc
      ⟨fun b _ _ => (none, b), fun b _ _ _ _ => (none, b), fun b _ _ => b⟩
      scratch_allocator_init () (some 5) 1 1 0).2.1 = scratch_allocator_init :=
  ⟨claim_C2.1 ⟨0, 10, 10⟩ 0 10 11 1 (by decide),
   claim_C2.2.1 ⟨0, 10, 10⟩ 0 10 11 1 (by decide),
   claim_C2.2.2.1 ⟨0, 32, 1, []⟩ 0 40 40 1 (by decide),
   claim_C2.2.2.2.1 ⟨0, 16, []⟩ 0 4 4 1 (by decide),
   claim_C2.2.2.2.2 Unit
     ⟨fun b _ _ => (none, b), fun b _ _ _ _ => (none, b), fun b _ _ => b⟩
     scratch_allocator_init () 5 1 1 0 rfl⟩

/-- The padding `align_forward` introduces is at most `alignment - 1`. -/
theorem align_forward_sub_le (a alignment : Nat) :
    align_forward a alignment - a ≤ alignment - 1 := by
  simp only [align_forward]
  have hand := @Nat.and_le_right a (alignment - 1)
  split
  · omega
  · omega

/-- A block whose size covers the conservative bound `size + alignment -
1` also covers `size + padding`, so the source's second size check never
rejects a block its first check admitted (for positive alignment). -/
theorem freelist_inner_check (size alignment a n : Nat) (hal : 0 < alignment)
    (h : n ≥ size + alignment - 1) :
    n ≥ size + (align_forward a alignment - a) := by
  have hp := align_forward_sub_le a alignment
  omega

/-- First-fit: if nothing before `node` passes the `size + alignment -
1` check and `node` does, the search returns `node` with the chain
around it preserved in order. -/
theorem freelist_find_eq (size alignment : Nat) (hal : 0 < alignment)
    (pre post : List (Nat × Nat)) (node : Nat × Nat)
    (hpre : ∀ m ∈ pre, m.2 < size + alignment - 1)
    (hfit : node.2 ≥ size + alignment - 1) :
    freelist_find size alignment (pre ++ node :: post) =
      some (node, pre ++ post) := by
  induction pre with
  | nil =>
    simp only [List.nil_append, freelist_find]
    rw [if_pos ⟨hfit, freelist_inner_check size alignment node.1 node.2 hal hfit⟩]
  | cons m pre ih =>
    simp only [List.cons_append, freelist_find]
    rw [if_neg (fun hc => absurd hc.1 (Nat.not_le.2 (hpre m (List.mem_cons_self m pre))))]
    simp only [List.append_eq]
    rw [ih (fun x hx => hpre x (List.mem_cons_of_mem m hx))]

/-- C5 fails on the code: a block whose size accommodates `size +
padding` is not taken when it is below `size + alignment - 1`.
Concretely, a single 16-byte free block at an already 16-aligned address
(padding 0) accommodates a 16-byte, 16-aligned request, yet the search
skips it and the allocation fails with the chain unchanged. -/
theorem claim_C5_counterexample :
    (16 ≥ 16 + (align_forward 0 16 - 0)) ∧
    freelist_allocator_alloc ⟨0, 16, [(0, 16)]⟩ 16 16 =
      (none, ⟨0, 16, [(0, 16)]⟩) := by
  constructor <;> decide

/-- C5 (amended): the search takes the first block whose size covers the
conservative bound `size + alignment - 1` (which in turn covers `size +
padding`); after unlinking it, the remainder block `(start + size +
padding, block size - (size + padding))` is pushed onto the chain head
exactly when the block's size exceeds `size + alignment - 1` plus the
free-block header size — not exactly when the remainder exceeds the
header size. -/
theorem claim_C5 (size alignment : Nat) (hal : 0 < alignment)
    (freelist : freelist_allocator) (pre post : List (Nat × Nat))
    (node : Nat × Nat)
    (hchain : freelist.free_list = pre ++ node :: post)
    (hpre : ∀ m ∈ pre, m.2 < size + alignment - 1)
    (hfit : node.2 ≥ size + alignment - 1) :
    (node.2 > size + alignment - 1 + sizeof_freelist_node →
      freelist_allocator_alloc freelist size alignment =
        (some (align_forward node.1 alignment),
         { freelist with free_list :=
            (node.1 + size + (align_forward node.1 alignment - node.1),
             node.2 - (size + (align_forward node.1 alignment - node.1))) ::
              (pre ++ post) })) ∧
    (node.2 ≤ size + alignment - 1 + sizeof_freelist_node →
      freelist_allocator_alloc freelist size alignment =
        (some (align_forward node.1 alignment),
         { freelist with free_list := pre ++ post })) := by
  constructor
  · intro hsplit
    simp only [freelist_allocator_alloc, hchain,
      freelist_find_eq size alignment hal pre post node hpre hfit]
    rw [if_pos hsplit]
  · intro hnosplit
    simp only [freelist_allocator_alloc, hchain,
      freelist_find_eq size alignment hal pre post node hpre hfit]
    rw [if_neg (Nat.not_lt.2 hnosplit)]

/-- Concrete run of `claim_C5`: chain `[(0, 8), (0, 64)]`, request 16
bytes at alignment 4 — the 8-byte head is skipped, the 64-byte block is
taken and split, and the 48-byte remainder lands at the chain head. -/
theorem claim_C5_witness :
    freelist_allocator_alloc ⟨0, 64, [(0, 8), (0, 64)]⟩ 16 4 =
      (some 0, ⟨0, 64, [(16, 48), (0, 8)]⟩) := by
  have h := (claim_C5 16 4 (by decide) ⟨0, 64, [(0, 8), (0, 64)]⟩
    [(0, 8)] [] (0, 64) rfl (by decide) (by decide)).1 (by decide)
  rw [h]
  decide

/-- C9: in scratch `allocate`, when the backing allocation succeeds but
the tracking sequence is full and growing it (to 8 slots initially,
doubling afterwards) fails, the new memory is handed back to the backing
allocator with its original size, the call fails, and the tracking state
is exactly what it was; when growth succeeds or no growth was needed,
the returned pointer is appended to the tracking sequence. -/
theorem claim_C9 :
    (∀ (β : Type) (bk : Backing β) (scratch : scratch_allocator) (b b₁ b₂ : β)
        (size alignment p : Nat),
       bk.alloc b size alignment = (some p, b₁) →
       scratch.allocations.length ≥ scratch.allocation_capacity →
       bk.realloc b₁ scratch.allocations_ptr
           (scratch.allocation_capacity * sizeof_void_ptr)
           ((if scratch.allocation_capacity = 0 then 8
             else scratch.allocation_capacity * 2) * sizeof_void_ptr)
           sizeof_void_ptr = (none, b₂) →
       scratch_allocator_alloc bk scratch b size alignment =
         (none, scratch, bk.free b₂ p size)) ∧
    (∀ (β : Type) (bk : Backing β) (scratch : scratch_allocator) (b b₁ b₂ : β)
        (size alignment p q : Nat),
       bk.alloc b size alignment = (some p, b₁) →
       scratch.allocations.length ≥ scratch.allocation_capacity →
       bk.realloc b₁ scratch.allocations_ptr
           (scratch.allocation_capacity * sizeof_void_ptr)
           ((if scratch.allocation_capacity = 0 then 8
             else scratch.allocation_capacity * 2) * sizeof_void_ptr)
           sizeof_void_ptr = (some q, b₂) →
       scratch_allocator_alloc bk scratch b size alignment =
         (some p,
          ⟨scratch.allocations ++ [p], some q,
           if scratch.allocation_capacity = 0 then 8
           else scratch.allocation_capacity * 2⟩, b₂)) ∧
    (∀ (β : Type) (bk : Backing β) (scratch : scratch_allocator) (b b₁ : β)
        (size alignment p : Nat),
       bk.alloc b size alignment = (some p, b₁) →
       scratch.allocations.length < scratch.allocation_capacity →
       scratch_allocator_alloc bk scratch b size alignment =
         (some p, { scratch with allocations := scratch.allocations ++ [p] },
          b₁)) := by
  refine ⟨?_, ?_, ?_⟩
  · intro β bk scratch b b₁ b₂ size alignment p h1 h2 h3
    simp only [scratch_allocator_alloc, h1]
    rw [if_pos h2]
    simp only [h3]
  · intro β bk scratch b b₁ b₂ size alignment p q h1 h2 h3
    simp only [scratch_allocator_alloc, h1]
    rw [if_pos h2]
    simp only [h3]
  · intro β bk scratch b b₁ size alignment p h1 h2
    simp only [scratch_allocator_alloc, h1]
    rw [if_neg (Nat.not_le.2 h2)]

/-- Concrete run of `claim_C9`: a backing allocator that produces
pointer 7 but refuses to grow the tracking array; the scratch allocate
fails and the tracking state stays `scratch_allocator_init`. -/
theorem claim_C9_witness :
    scratch_allocator_alloc
      ⟨fun b _ _ => (some 7, b), fun b _ _ _ _ => (none, b), fun b _ _ => b⟩
      scratch_allocator_init () 4 8 = (none, scratch_allocator_init, ()) :=
  claim_C9.1 Unit
    ⟨fun b _ _ => (some 7, b), fun b _ _ _ _ => (none, b), fun b _ _ => b⟩
    scratch_allocator_init () () () 4 8 7 rfl (by decide) rfl

/-- Folding the observer backing's `free` over a pointer list records
exactly those pointers, in order, each with the size it was passed. -/
theorem trace_free_foldl (l : List Nat) (tr : List (Nat × Nat)) :
    l.foldl (fun bb p => trace_backing.free bb p 0) tr =
      tr ++ l.map (fun p => (p, 0)) := by
  induction l generalizing tr with
  | nil => simp
  | cons x xs ih =>
    simp only [List.foldl_cons, List.map_cons]
    rw [show trace_backing.free tr x 0 = tr ++ [(x, 0)] from rfl, ih]
    simp

/-- C10: `reset` releases each tracked pointer through the backing
allocator once, in issue order, passing size 0 (not the allocation's
original size), then empties the tracked sequence while keeping the
tracking array and its capacity; observed through the recording backing
`trace_backing`. -/
theorem claim_C10 (scratch : scratch_allocator) (tr : List (Nat × Nat)) :
    scratch_allocator_reset trace_backing scratch tr =
      ({ scratch with allocations := [] },
       tr ++ scratch.allocations.map (fun p => (p, 0))) ∧
    (scratch_allocator_reset trace_backing scratch tr).1.allocation_capacity =
      scratch.allocation_capacity ∧
    (scratch_allocator_reset trace_backing scratch tr).1.allocations_ptr =
      scratch.allocations_ptr := by
  refine ⟨?_, rfl, rfl⟩
  simp only [scratch_allocator_reset]
  rw [trace_free_foldl]
